import Mathlib

/-!
Verification development for the claude-code-starter repository.

The definitions below are a shallow embedding of the final modular version of
the tool (src/analyzer.ts, src/generator.ts, src/cli.ts):

* file-system signals are passed explicitly (a directory listing is a
  `List String` of entry names, a file's bytes are a `String`, a file that may
  be absent is an `Option`, a read that may fail is an `Except Unit`);
* the JSON manifest is abstracted to its parse result: a stored
  `PkgContent.malformed` stands for bytes `JSON.parse` rejects, and
  `PkgContent.wf m` for bytes that parse to the manifest `m`;
* the writer's disk is a map from absolute path strings to file contents,
  threaded explicitly through `writeArtifacts`.

Every definition mirrors the corresponding TypeScript function, keeping its
name and control flow.
-/

namespace Starter

/-- Test that `pat` is a prefix of `s` (on character lists; structural recursion keeps
every string primitive evaluable by the kernel). -/
def leadingMatch : List Char → List Char → Bool
  | [], _ => true
  | _ :: _, [] => false
  | p :: ps, c :: cs => p == c && leadingMatch ps cs

/-- JavaScript `String.prototype.startsWith`. -/
def strStartsWith (s pat : String) : Bool :=
  leadingMatch pat.data s.data

/-- JavaScript `String.prototype.endsWith`. -/
def strEndsWith (s pat : String) : Bool :=
  leadingMatch pat.data.reverse s.data.reverse

/-- Test that `pat` occurs somewhere in the character list. -/
def listContainsSubstr (pat : List Char) : List Char → Bool
  | [] => pat.isEmpty
  | c :: cs => leadingMatch pat (c :: cs) || listContainsSubstr pat cs

/-- JavaScript `String.prototype.includes`. -/
def containsSubstr (s pat : String) : Bool :=
  listContainsSubstr pat.data s.data

/-- Split a character list at a separator (JavaScript `split`). -/
def splitOnChar (sep : Char) : List Char → List (List Char)
  | [] => [[]]
  | c :: cs =>
    let r := splitOnChar sep cs
    if c == sep then [] :: r
    else match r with
      | [] => [[c]]
      | h :: t => (c :: h) :: t

/-- JavaScript truthiness of an optional string property: the property is
present and not the empty string. -/
def truthy : Option String → Bool
  | some s => s != ""
  | none => false

-- ===========================================================================
-- Data model (src/types.ts)
-- ===========================================================================

inductive Language
  | typescript | javascript | python | go | rust | java | ruby
  | csharp | swift | kotlin | php | cpp
  deriving DecidableEq, Repr

inductive Framework
  | nextjs | react | vue | nuxt | svelte | sveltekit | angular | astro
  | remix | gatsby | solid
  | express | nestjs | fastify | hono | elysia | koa
  | fastapi | django | flask | starlette
  | gin | echo | fiber
  | actix | axum | rocket
  | rails | sinatra
  | spring | quarkus
  | tailwind | shadcn | chakra | mui
  | prisma | drizzle | typeorm | sequelize | mongoose | sqlalchemy
  deriving DecidableEq, Repr

inductive PackageManager
  | npm | yarn | pnpm | bun | pip | poetry | cargo | go | bundler
  | maven | gradle
  deriving DecidableEq, Repr

inductive TestingFramework
  | jest | vitest | mocha | playwright | cypress | bunTest | pytest
  | goTest | rustTest | rspec
  deriving DecidableEq, Repr

inductive Linter
  | eslint | biome | ruff | flake8
  deriving DecidableEq, Repr

inductive Formatter
  | prettier | biome | black
  deriving DecidableEq, Repr

inductive Bundler
  | vite | webpack | tsup | rollup | esbuild | parcel | turbopack | rspack
  deriving DecidableEq, Repr

inductive CICDPlatform
  | githubActions | gitlabCi | circleci | travis | azureDevops | jenkins
  deriving DecidableEq, Repr

/-- The parsed `package.json` object (only the fields the program reads). -/
structure Manifest where
  dependencies : List (String × String) := []
  devDependencies : List (String × String) := []
  scripts : List (String × String) := []
  name : Option String := none
  description : Option String := none
  workspaces : Bool := false
  deriving DecidableEq, Repr

/-- Bytes stored at `package.json`, abstracted to their parse result. -/
inductive PkgContent
  | malformed
  | wf (m : Manifest)
  deriving DecidableEq, Repr

/-- A directory-tree entry, as surfaced by `readdirSync(..., withFileTypes)`. -/
inductive Entry
  | file (name : String)
  | dir (name : String) (entries : List Entry)

/-- A directory-tree entry whose directory reads may fail: the recursive
`.claude` walk of `detectExistingClaudeConfig` calls `fs.readdirSync` with no
try/catch, so a subdirectory that exists but cannot be read (`dirErr`) makes
the walk throw. -/
inductive EntryR
  | file (name : String)
  | dirOk (name : String) (entries : List EntryR)
  | dirErr (name : String)

mutual

/-- Every directory read the walk would perform on this entry succeeds. -/
def entryReadsOk : EntryR → Bool
  | .file _ => true
  | .dirOk _ es => entriesReadsOk es
  | .dirErr _ => false

/-- Every directory read the walk would perform on these entries succeeds. -/
def entriesReadsOk : List EntryR → Bool
  | [] => true
  | e :: es => entryReadsOk e && entriesReadsOk es

end

mutual

/-- The failure-free view of an entry: a directory whose read would fail is
shown as empty.  The view is only meaningful where `entryReadsOk` holds; the
effectful walk below accounts for the thrown case. -/
def entryOfR : EntryR → Entry
  | .file n => .file n
  | .dirOk n es => .dir n (entriesOfR es)
  | .dirErr n => .dir n []

/-- The failure-free view of a list of entries. -/
def entriesOfR : List EntryR → List Entry
  | [] => []
  | e :: es => entryOfR e :: entriesOfR es

end

/-- The detected technology stack (interface `TechStack`). -/
structure TechStack where
  languages : List Language
  primaryLanguage : Option Language
  frameworks : List Framework
  primaryFramework : Option Framework
  packageManager : Option PackageManager
  testingFramework : Option TestingFramework
  linter : Option Linter
  formatter : Option Formatter
  bundler : Option Bundler
  isMonorepo : Bool
  hasDocker : Bool
  hasCICD : Bool
  cicdPlatform : Option CICDPlatform
  hasClaudeConfig : Bool
  existingClaudeFiles : List String
  deriving DecidableEq, Repr

/-- The file-system signals one run of the analyzer can observe.  Reads that
the code performs with `fs.readFileSync` are `Except Unit _` values (`.error`
models a read that throws); files guarded by `fs.existsSync` are `Option`s. -/
structure RepoDisk where
  /-- Result of `fs.readdirSync(rootDir)`: entry names, or a thrown error. -/
  rootEntries : Except Unit (List String) := .ok []
  /-- The `package.json` file: absent, or present with a read result. -/
  pkgJson : Option (Except Unit PkgContent) := none
  requirementsTxt : Option (Except Unit String) := none
  pyprojectToml : Option (Except Unit String) := none
  gemfile : Option (Except Unit String) := none
  goMod : Option (Except Unit String) := none
  cargoToml : Option (Except Unit String) := none
  /-- True when `packages/` exists and `statSync` reports a directory. -/
  packagesIsDir : Bool := false
  /-- True when `apps/` exists and `statSync` reports a directory. -/
  appsIsDir : Bool := false
  /-- True when `.github/workflows` exists. -/
  githubWorkflows : Bool := false
  /-- True when `.circleci` exists. -/
  circleci : Bool := false
  /-- the `.claude` directory, when it exists: either the result of reading
  it (a tree whose subdirectory reads may themselves fail), or a failing
  read of `.claude` itself. -/
  claudeDir : Option (Except Unit (List EntryR)) := none
  /-- a root-level `CLAUDE.md` exists. -/
  rootClaudeMd : Bool := false
  /-- the recursive tree under the project root (for `countSourceFiles`). -/
  rootTree : List Entry := []
  /-- The `.gitignore` content, when the file exists. -/
  gitignore : Option String := none

-- ===========================================================================
-- Signal collection (src/analyzer.ts)
-- ===========================================================================

/-- Function `readPackageJson`: `null` when the file is absent, the read throws, or
`JSON.parse` throws; the parsed manifest otherwise. -/
def readPackageJson (d : RepoDisk) : Option Manifest :=
  match d.pkgJson with
  | none => none
  | some (.error _) => none
  | some (.ok .malformed) => none
  | some (.ok (.wf m)) => some m

/-- Function `listRootFiles`: the directory listing, degrading to `[]` when
`readdirSync` throws. -/
def listRootFiles (d : RepoDisk) : List String :=
  match d.rootEntries with
  | .error _ => []
  | .ok fs => fs

/-- Merged dependency map `{...dependencies, ...devDependencies}`: a key in
`devDependencies` shadows the same key in `dependencies`. -/
def lookupDep (m : Manifest) (k : String) : Option String :=
  match m.devDependencies.lookup k with
  | some v => some v
  | none => m.dependencies.lookup k

/-- Truthiness of `allDeps[k]` for the merged dependency map. -/
def hasDep (m : Manifest) (k : String) : Bool :=
  truthy (lookupDep m k)

/-- Function `hasDevDep`: the key is present in `devDependencies` or `dependencies`
(`in` checks key presence, not truthiness). -/
def hasDevDep (pkg : Option Manifest) (dep : String) : Bool :=
  match pkg with
  | none => false
  | some m =>
    (m.devDependencies.lookup dep).isSome || (m.dependencies.lookup dep).isSome

-- ===========================================================================
-- Classifier: languages
-- ===========================================================================

/-- The `add` closure shared by `detectLanguages` and `detectFrameworks`:
append a tag unless it was already inserted (the `seen` set always holds
exactly the tags of the list). -/
def add [DecidableEq α] (x : α) (l : List α) : List α :=
  if x ∈ l then l else l ++ [x]

/-- One guarded detector step: `if (condition) add(tag)`. -/
def addIf [DecidableEq α] (b : Bool) (x : α) (l : List α) : List α :=
  if b then add x l else l

/-- A battery of guarded detector steps, evaluated in list order (each source
loop is a literal sequence of `if (condition) add(tag)` statements; this fold
over the ordered (condition, tag) list is that same sequence). -/
def applyChecks [DecidableEq α] (checks : List (Bool × α)) (l : List α) : List α :=
  checks.foldl (fun acc p => addIf p.1 p.2 acc) l

/-- TypeScript evidence (first detector of `detectLanguages`). -/
def tsEvidence (files : List String) (pkg : Option Manifest) : Bool :=
  files.contains "tsconfig.json" ||
  files.contains "tsconfig.base.json" ||
  hasDevDep pkg "typescript" ||
  files.any (fun f => strEndsWith f ".ts" || strEndsWith f ".tsx")

/-- JavaScript evidence (outer condition of the second detector). -/
def jsEvidence (files : List String) (pkg : Option Manifest) : Bool :=
  pkg.isSome ||
  files.any (fun f => strEndsWith f ".js" || strEndsWith f ".mjs" || strEndsWith f ".cjs")

/-- The nine unguarded language detectors that follow the TypeScript and
JavaScript ones, in source order. -/
def langChecks (files : List String) : List (Bool × Language) :=
  [(files.contains "pyproject.toml" || files.contains "setup.py" ||
    files.contains "requirements.txt" || files.contains "Pipfile" ||
    files.any (fun f => strEndsWith f ".py"), .python),
   (files.contains "go.mod" || files.contains "go.sum", .go),
   (files.contains "Cargo.toml" || files.contains "Cargo.lock", .rust),
   (files.contains "Gemfile" || files.contains "Gemfile.lock", .ruby),
   (files.contains "pom.xml" || files.contains "build.gradle" ||
    files.contains "build.gradle.kts", .java),
   (files.any (fun f => strEndsWith f ".kt" || strEndsWith f ".kts"), .kotlin),
   (files.any (fun f => strEndsWith f ".csproj" || strEndsWith f ".sln"), .csharp),
   (files.contains "Package.swift" ||
    files.any (fun f => strEndsWith f ".swift"), .swift),
   (files.contains "composer.json" ||
    files.any (fun f => strEndsWith f ".php"), .php)]

/-- Function `detectLanguages` (the unused `_rootDir` parameter is dropped):
TypeScript first, then JavaScript guarded by `!seen.has("typescript")`, then
the nine additive detectors. -/
def detectLanguages (files : List String) (pkg : Option Manifest) : List Language :=
  let l : List Language := []
  let l := addIf (tsEvidence files pkg) .typescript l
  -- JavaScript is added only when TypeScript was not (`!seen.has("typescript")`).
  let l := addIf (jsEvidence files pkg && !(decide (Language.typescript ∈ l))) .javascript l
  applyChecks (langChecks files) l

-- ===========================================================================
-- Classifier: package manager
-- ===========================================================================

/-- Function `detectPackageManager`: an ordered first-match chain over lock files. -/
def detectPackageManager (files : List String) : Option PackageManager :=
  if files.contains "bun.lockb" || files.contains "bun.lock" then some .bun
  else if files.contains "pnpm-lock.yaml" then some .pnpm
  else if files.contains "yarn.lock" then some .yarn
  else if files.contains "package-lock.json" then some .npm
  else if files.contains "poetry.lock" then some .poetry
  else if files.contains "Pipfile.lock" || files.contains "requirements.txt" then some .pip
  else if files.contains "Cargo.lock" then some .cargo
  else if files.contains "go.sum" then some .go
  else if files.contains "Gemfile.lock" then some .bundler
  else if files.contains "pom.xml" then some .maven
  else if files.contains "build.gradle" || files.contains "build.gradle.kts" then some .gradle
  else none

/-- First-match resolution of an ordered (predicate, tag) list: the tag of
the first pair whose predicate holds, later pairs not considered. -/
def ifChain : List (Bool × β) → Option β
  | [] => none
  | (b, x) :: rest => if b then some x else ifChain rest

/-- The same chain presented as an explicit ordered list of
(predicate, tag) pairs, in source order. -/
def pmChain (files : List String) : List (Bool × PackageManager) :=
  [(files.contains "bun.lockb" || files.contains "bun.lock", .bun),
   (files.contains "pnpm-lock.yaml", .pnpm),
   (files.contains "yarn.lock", .yarn),
   (files.contains "package-lock.json", .npm),
   (files.contains "poetry.lock", .poetry),
   (files.contains "Pipfile.lock" || files.contains "requirements.txt", .pip),
   (files.contains "Cargo.lock", .cargo),
   (files.contains "go.sum", .go),
   (files.contains "Gemfile.lock", .bundler),
   (files.contains "pom.xml", .maven),
   (files.contains "build.gradle" || files.contains "build.gradle.kts", .gradle)]

-- ===========================================================================
-- Classifier: frameworks
-- ===========================================================================

/-- Lower-cased raw texts of the ecosystem declaration files consulted when no
manifest exists (`none` = the file does not exist). -/
structure FallbackTexts where
  requirementsTxt : Option String := none
  pyprojectToml : Option String := none
  gemfile : Option String := none
  goMod : Option String := none
  cargoToml : Option String := none

/-- The plain (exception-free) view of the fallback files: an existing file
contributes its content when its read succeeds; a read the real code would
throw on contributes a junk value (`""`).  `detectTechStackE` below accounts
for the thrown case; `fallback_reads_ok` hypotheses tie the two together. -/
def textOf : Option (Except Unit String) → Option String
  | none => none
  | some (.ok s) => some s
  | some (.error _) => some ""

def fallbackTextsOf (d : RepoDisk) : FallbackTexts :=
  { requirementsTxt := textOf d.requirementsTxt
    pyprojectToml := textOf d.pyprojectToml
    gemfile := textOf d.gemfile
    goMod := textOf d.goMod
    cargoToml := textOf d.cargoToml }

/-- Reading one optional file, with a failing read propagating as a thrown
error (the fallback reads in `detectFrameworks` are not wrapped in
try/catch in the source). -/
def readTextE : Option (Except Unit String) → Except Unit (Option String)
  | none => .ok none
  | some r => r.map some

/-- All five fallback reads, first failure propagating. -/
def fallbackTextsE (d : RepoDisk) : Except Unit FallbackTexts := do
  let req ← readTextE d.requirementsTxt
  let py ← readTextE d.pyprojectToml
  let gem ← readTextE d.gemfile
  let gomod ← readTextE d.goMod
  let cargo ← readTextE d.cargoToml
  pure { requirementsTxt := req, pyprojectToml := py, gemfile := gem,
         goMod := gomod, cargoToml := cargo }

/-- The front-end if/else-if chain of `detectFrameworks`, as the ordered list
of (predicate, tag) pairs it tests, most specific meta-framework first. -/
def frontendChain (m : Manifest) : List (Bool × Framework) :=
  [(hasDep m "next", .nextjs),
   (hasDep m "nuxt" || hasDep m "nuxt3", .nuxt),
   (hasDep m "@sveltejs/kit", .sveltekit),
   (hasDep m "svelte", .svelte),
   (hasDep m "astro", .astro),
   (hasDep m "@remix-run/react", .remix),
   (hasDep m "gatsby", .gatsby),
   (hasDep m "solid-js", .solid),
   (hasDep m "@angular/core", .angular),
   (hasDep m "vue", .vue),
   (hasDep m "react", .react)]

/-- The additive backend / CSS-UI / ORM detectors of the manifest branch, in
source order. -/
def manifestChecks (m : Manifest) (files : List String) : List (Bool × Framework) :=
  [(hasDep m "@nestjs/core", .nestjs),
   (hasDep m "express", .express),
   (hasDep m "fastify", .fastify),
   (hasDep m "hono", .hono),
   (hasDep m "elysia", .elysia),
   (hasDep m "koa", .koa),
   (hasDep m "tailwindcss", .tailwind),
   (files.contains "components.json", .shadcn),
   (hasDep m "@chakra-ui/react", .chakra),
   (hasDep m "@mui/material", .mui),
   (hasDep m "prisma" || hasDep m "@prisma/client", .prisma),
   (hasDep m "drizzle-orm", .drizzle),
   (hasDep m "typeorm", .typeorm),
   (hasDep m "sequelize", .sequelize),
   (hasDep m "mongoose", .mongoose)]

/-- Function `detectFrameworks`, manifest branch: exclusive front-end chain (first
matching predicate only), then additive backend / CSS-UI / ORM detectors. -/
def detectFrameworksFromManifest (m : Manifest) (files : List String) : List Framework :=
  let l : List Framework := []
  let l := match (frontendChain m).find? (fun p => p.1) with
    | some p => add p.2 l
    | none => l
  applyChecks (manifestChecks m files) l

/-- The detectors of the no-manifest branch, in source order: Python
substring checks always run (over the concatenation of the two lower-cased
Python files, absent files contributing `""`); the Ruby/Go/Rust checks run
only when the respective file exists. -/
def fallbackChecks (t : FallbackTexts) : List (Bool × Framework) :=
  let pythonDeps :=
    (match t.requirementsTxt with | some s => s.toLower | none => "") ++
    (match t.pyprojectToml with | some s => s.toLower | none => "")
  [(containsSubstr pythonDeps "fastapi", .fastapi),
   (containsSubstr pythonDeps "django", .django),
   (containsSubstr pythonDeps "flask", .flask),
   (containsSubstr pythonDeps "starlette", .starlette),
   (containsSubstr pythonDeps "sqlalchemy", .sqlalchemy)] ++
  (match t.gemfile with
   | some g0 =>
     let g := g0.toLower
     [(containsSubstr g "rails", .rails),
      (containsSubstr g "sinatra", .sinatra)]
   | none => []) ++
  (match t.goMod with
   | some g0 =>
     let g := g0.toLower
     [(containsSubstr g "gin-gonic", .gin),
      (containsSubstr g "labstack/echo", .echo),
      (containsSubstr g "gofiber", .fiber)]
   | none => []) ++
  (match t.cargoToml with
   | some c0 =>
     let c := c0.toLower
     [(containsSubstr c "actix", .actix),
      (containsSubstr c "axum", .axum),
      (containsSubstr c "rocket", .rocket)]
   | none => [])

/-- Function `detectFrameworks`, no-manifest branch: lower-cased substring matching
inside the ecosystem declaration files. -/
def detectFrameworksFallback (t : FallbackTexts) : List Framework :=
  applyChecks (fallbackChecks t) []

/-- Function `detectFrameworks`: fallback branch when no manifest parsed, manifest
branch otherwise. -/
def detectFrameworks (pkg : Option Manifest) (files : List String)
    (t : FallbackTexts) : List Framework :=
  match pkg with
  | none => detectFrameworksFallback t
  | some m => detectFrameworksFromManifest m files

/-- Effectful version of `detectFrameworks`: in the no-manifest branch the
five fallback reads happen with no try/catch, so a failing read of an
existing file propagates. -/
def detectFrameworksE (pkg : Option Manifest) (files : List String)
    (d : RepoDisk) : Except Unit (List Framework) :=
  match pkg with
  | none => do
    let t ← fallbackTextsE d
    pure (detectFrameworksFallback t)
  | some m => pure (detectFrameworksFromManifest m files)

-- ===========================================================================
-- Classifier: single-valued resolvers and booleans
-- ===========================================================================

def detectTestingFramework (pkg : Option Manifest) (files : List String) :
    Option TestingFramework :=
  match (match pkg with
    | some m =>
      if hasDep m "vitest" then some TestingFramework.vitest
      else if hasDep m "jest" then some .jest
      else if hasDep m "mocha" then some .mocha
      else if hasDep m "@playwright/test" then some .playwright
      else if hasDep m "cypress" then some .cypress
      else if (match m.scripts.lookup "test" with
               | some s => containsSubstr s "bun test"
               | none => false) then some .bunTest
      else none
    | none => none) with
  | some t => some t
  | none =>
    if files.contains "pytest.ini" || files.contains "conftest.py" then some .pytest
    else if files.contains "go.mod" then some .goTest
    else if files.contains "Cargo.toml" then some .rustTest
    else if files.contains "Gemfile" then some .rspec
    else none

def detectLinter (pkg : Option Manifest) (files : List String) : Option Linter :=
  if files.any (fun f => strStartsWith f "eslint.config" || f == ".eslintrc" ||
                         strStartsWith f ".eslintrc.") then some .eslint
  else if files.contains "biome.json" || files.contains "biome.jsonc" then
    some Linter.biome
  else match (match pkg with
    | some m =>
      if hasDep m "eslint" then some Linter.eslint
      else if hasDep m "@biomejs/biome" then some Linter.biome
      else none
    | none => none) with
  | some x => some x
  | none =>
    if files.contains "ruff.toml" || files.contains ".ruff.toml" then some .ruff
    else if files.contains ".flake8" || files.contains "setup.cfg" then some .flake8
    else none

def detectFormatter (pkg : Option Manifest) (files : List String) : Option Formatter :=
  if files.any (fun f => strStartsWith f ".prettierrc" || f == "prettier.config.js" ||
                         f == "prettier.config.mjs") then some .prettier
  else if files.contains "biome.json" || files.contains "biome.jsonc" then
    some Formatter.biome
  else match (match pkg with
    | some m =>
      if hasDep m "prettier" then some Formatter.prettier
      else if hasDep m "@biomejs/biome" then some Formatter.biome
      else none
    | none => none) with
  | some x => some x
  | none =>
    if files.contains "pyproject.toml" then some .black
    else none

def detectBundler (pkg : Option Manifest) (files : List String) : Option Bundler :=
  if files.any (fun f => strStartsWith f "vite.config") then some .vite
  else if files.any (fun f => strStartsWith f "webpack.config") then some .webpack
  else if files.contains "tsup.config.ts" || files.contains "tsup.config.js" then
    some .tsup
  else if files.any (fun f => strStartsWith f "rollup.config") then some .rollup
  else if files.any (fun f => strStartsWith f "esbuild") then some .esbuild
  else match pkg with
  | some m =>
    if hasDep m "vite" then some .vite
    else if hasDep m "webpack" then some .webpack
    else if hasDep m "tsup" then some .tsup
    else if hasDep m "esbuild" then some .esbuild
    else if hasDep m "rollup" then some .rollup
    else if hasDep m "parcel" then some .parcel
    else if hasDep m "@vercel/turbopack" then some .turbopack
    else if hasDep m "@rspack/core" then some .rspack
    else none
  | none => none

def detectMonorepo (d : RepoDisk) (files : List String)
    (pkg : Option Manifest) : Bool :=
  files.contains "pnpm-workspace.yaml" ||
  files.contains "lerna.json" ||
  files.contains "nx.json" ||
  files.contains "turbo.json" ||
  (match pkg with | some m => m.workspaces | none => false) ||
  d.packagesIsDir ||
  d.appsIsDir

def detectCICD (d : RepoDisk) (files : List String) :
    Bool × Option CICDPlatform :=
  if d.githubWorkflows then (true, some .githubActions)
  else if files.contains ".gitlab-ci.yml" then (true, some .gitlabCi)
  else if d.circleci then (true, some .circleci)
  else if files.contains ".travis.yml" then (true, some .travis)
  else if files.contains "azure-pipelines.yml" then (true, some .azureDevops)
  else if files.contains "Jenkinsfile" then (true, some .jenkins)
  else (false, none)

-- ===========================================================================
-- Classifier: existing-config scan
-- ===========================================================================

/-- Join two relative components, as `path.join` does. -/
def joinPath (a b : String) : String := a ++ "/" ++ b

mutual

/-- Function `findFiles` applied to one entry: a file's relative path, or a recursive
walk of a subdirectory. -/
def entryFiles : Entry → String → List String
  | .file n, pre => [joinPath pre n]
  | .dir n es, pre => entriesFiles es (joinPath pre n)

/-- Function `findFiles` applied to all entries of one directory, in listing order. -/
def entriesFiles : List Entry → String → List String
  | [], _ => []
  | e :: es, pre => entryFiles e pre ++ entriesFiles es pre

end

/-- Function `detectExistingClaudeConfig`: a recursive walk of `.claude` when it
exists, otherwise the legacy root `CLAUDE.md` check. -/
def detectExistingClaudeConfig (claudeDir : Option (List Entry))
    (rootClaudeMd : Bool) : Bool × List String :=
  match claudeDir with
  | none => if rootClaudeMd then (true, ["CLAUDE.md"]) else (false, [])
  | some es => (true, entriesFiles es ".claude")

mutual

/-- Effectful version of `findFiles` on one entry: descending into a
directory performs an uncaught `readdirSync`, whose failure propagates. -/
def entryFilesE : EntryR → String → Except Unit (List String)
  | .file n, pre => .ok [joinPath pre n]
  | .dirOk n es, pre => entriesFilesE es (joinPath pre n)
  | .dirErr _, _ => .error ()

/-- Effectful version of `findFiles` on a directory's entries. -/
def entriesFilesE : List EntryR → String → Except Unit (List String)
  | [], _ => .ok []
  | e :: es, pre =>
    match entryFilesE e pre with
    | .error e' => .error e'
    | .ok a =>
      match entriesFilesE es pre with
      | .error e' => .error e'
      | .ok b => .ok (a ++ b)

end

/-- Effectful version of `detectExistingClaudeConfig`: reading `.claude`
itself, or any subdirectory the walk descends into, may throw and then
propagates (none of these `readdirSync` calls is wrapped in try/catch). -/
def detectExistingClaudeConfigE (claudeDir : Option (Except Unit (List EntryR)))
    (rootClaudeMd : Bool) : Except Unit (Bool × List String) :=
  match claudeDir with
  | none => .ok (if rootClaudeMd then (true, ["CLAUDE.md"]) else (false, []))
  | some (.error e) => .error e
  | some (.ok es) =>
    match entriesFilesE es ".claude" with
    | .error e => .error e
    | .ok fs => .ok (true, fs)

/-- The failure-free view of the stored `.claude` directory, feeding the pure
`detectExistingClaudeConfig` (junk — an empty tree — where a read would have
thrown; `detectTechStackE` accounts for the thrown cases). -/
def claudeDirOf (d : RepoDisk) : Option (List Entry) :=
  match d.claudeDir with
  | none => none
  | some (.error _) => some []
  | some (.ok es) => some (entriesOfR es)

/-- Reading `.claude` (when present) and every subdirectory the walk visits
succeeds. -/
def claudeReadsOk (d : RepoDisk) : Bool :=
  match d.claudeDir with
  | none => true
  | some (.error _) => false
  | some (.ok es) => entriesReadsOk es

-- ===========================================================================
-- Source-file counting (analyzeRepository)
-- ===========================================================================

def sourceExtensions : List String :=
  [".js", ".jsx", ".mjs", ".cjs", ".ts", ".tsx", ".py", ".go", ".rs",
   ".java", ".kt", ".kts", ".rb", ".cs", ".swift", ".php",
   ".c", ".cpp", ".cc", ".cxx", ".h", ".hpp"]

def baseIgnorePatterns : List String :=
  [".git", "node_modules", "__pycache__", ".venv", "venv", "target",
   "dist", "build"]

/-- Extra ignore patterns from `.gitignore`: non-empty non-comment trimmed
lines, with a single trailing slash stripped (`replace(/\/$/, "")`). -/
def gitignorePatterns : Option String → List String
  | none => []
  | some c =>
    (c.splitOn "\n").filterMap fun line =>
      let trimmed := line.trim
      if trimmed != "" && !(strStartsWith trimmed "#") then
        some (if strEndsWith trimmed "/" then trimmed.dropRight 1 else trimmed)
      else none

def shouldIgnore (patterns : List String) (name : String) : Bool :=
  patterns.any fun p => name == p || strStartsWith name (p ++ "/")

mutual

/-- One entry of the recursive counting loop of `countSourceFiles`: an
ignored entry contributes nothing, a file with a source extension counts one,
a directory is descended into unless the depth cap (`depth > 5`, checked at
the head of `countFiles`) stops it.  Unreadable directories are not modelled
(the loop swallows those errors). -/
def countFilesEntry (patterns : List String) : Entry → Nat → Nat
  | .file n, _ =>
    if shouldIgnore patterns n then 0
    else if sourceExtensions.any (fun ext => strEndsWith n ext) then 1 else 0
  | .dir n sub, depth =>
    if shouldIgnore patterns n then 0
    else if depth + 1 > 5 then 0
    else countFilesEntries patterns sub (depth + 1)

/-- The counting loop over a directory's entries, visited at depth `depth`. -/
def countFilesEntries (patterns : List String) : List Entry → Nat → Nat
  | [], _ => 0
  | e :: rest, depth =>
    countFilesEntry patterns e depth + countFilesEntries patterns rest depth

end

def countSourceFiles (d : RepoDisk) : Nat :=
  countFilesEntries (baseIgnorePatterns ++ gitignorePatterns d.gitignore)
    d.rootTree 0

-- ===========================================================================
-- detectTechStack / analyzeRepository
-- ===========================================================================

/-- Function `detectTechStack`, the pure value it computes when no fallback read
throws. -/
def detectTechStack (d : RepoDisk) : TechStack :=
  let pkg := readPackageJson d
  let files := listRootFiles d
  let languages := detectLanguages files pkg
  let frameworks := detectFrameworks pkg files (fallbackTextsOf d)
  let cicd := detectCICD d files
  let claude := detectExistingClaudeConfig (claudeDirOf d) d.rootClaudeMd
  { languages := languages
    primaryLanguage := languages.head?
    frameworks := frameworks
    primaryFramework := frameworks.head?
    packageManager := detectPackageManager files
    testingFramework := detectTestingFramework pkg files
    linter := detectLinter pkg files
    formatter := detectFormatter pkg files
    bundler := detectBundler pkg files
    isMonorepo := detectMonorepo d files pkg
    hasDocker := files.contains "Dockerfile" ||
                 files.contains "docker-compose.yml" ||
                 files.contains "docker-compose.yaml"
    hasCICD := cicd.1
    cicdPlatform := cicd.2
    hasClaudeConfig := claude.1
    existingClaudeFiles := claude.2 }

/-- Function `detectTechStack` with exceptions made explicit.  Its uncaught
file-system reads are the fallback declaration reads of `detectFrameworks`
and the recursive `.claude` walk of `detectExistingClaudeConfig` (the
`statSync` calls of `detectMonorepo` follow a successful `existsSync` on the
same path and cannot fail under the exclusive-access, single-run model). -/
def detectTechStackE (d : RepoDisk) : Except Unit TechStack := do
  let pkg := readPackageJson d
  let files := listRootFiles d
  let languages := detectLanguages files pkg
  let frameworks ← detectFrameworksE pkg files d
  let cicd := detectCICD d files
  let claude ← detectExistingClaudeConfigE d.claudeDir d.rootClaudeMd
  pure {
    languages := languages
    primaryLanguage := languages.head?
    frameworks := frameworks
    primaryFramework := frameworks.head?
    packageManager := detectPackageManager files
    testingFramework := detectTestingFramework pkg files
    linter := detectLinter pkg files
    formatter := detectFormatter pkg files
    bundler := detectBundler pkg files
    isMonorepo := detectMonorepo d files pkg
    hasDocker := files.contains "Dockerfile" ||
                 files.contains "docker-compose.yml" ||
                 files.contains "docker-compose.yaml"
    hasCICD := cicd.1
    cicdPlatform := cicd.2
    hasClaudeConfig := claude.1
    existingClaudeFiles := claude.2 }

-- ===========================================================================
-- Tag strings (the raw string-union values of src/types.ts)
-- ===========================================================================

def Language.tag : Language → String
  | .typescript => "typescript" | .javascript => "javascript"
  | .python => "python" | .go => "go" | .rust => "rust" | .java => "java"
  | .ruby => "ruby" | .csharp => "csharp" | .swift => "swift"
  | .kotlin => "kotlin" | .php => "php" | .cpp => "cpp"

def Framework.tag : Framework → String
  | .nextjs => "nextjs" | .react => "react" | .vue => "vue" | .nuxt => "nuxt"
  | .svelte => "svelte" | .sveltekit => "sveltekit" | .angular => "angular"
  | .astro => "astro" | .remix => "remix" | .gatsby => "gatsby"
  | .solid => "solid" | .express => "express" | .nestjs => "nestjs"
  | .fastify => "fastify" | .hono => "hono" | .elysia => "elysia"
  | .koa => "koa" | .fastapi => "fastapi" | .django => "django"
  | .flask => "flask" | .starlette => "starlette" | .gin => "gin"
  | .echo => "echo" | .fiber => "fiber" | .actix => "actix"
  | .axum => "axum" | .rocket => "rocket" | .rails => "rails"
  | .sinatra => "sinatra" | .spring => "spring" | .quarkus => "quarkus"
  | .tailwind => "tailwind" | .shadcn => "shadcn" | .chakra => "chakra"
  | .mui => "mui" | .prisma => "prisma" | .drizzle => "drizzle"
  | .typeorm => "typeorm" | .sequelize => "sequelize"
  | .mongoose => "mongoose" | .sqlalchemy => "sqlalchemy"

def PackageManager.tag : PackageManager → String
  | .npm => "npm" | .yarn => "yarn" | .pnpm => "pnpm" | .bun => "bun"
  | .pip => "pip" | .poetry => "poetry" | .cargo => "cargo" | .go => "go"
  | .bundler => "bundler" | .maven => "maven" | .gradle => "gradle"

def TestingFramework.tag : TestingFramework → String
  | .jest => "jest" | .vitest => "vitest" | .mocha => "mocha"
  | .playwright => "playwright" | .cypress => "cypress"
  | .bunTest => "bun-test" | .pytest => "pytest" | .goTest => "go-test"
  | .rustTest => "rust-test" | .rspec => "rspec"

def Linter.tag : Linter → String
  | .eslint => "eslint" | .biome => "biome" | .ruff => "ruff"
  | .flake8 => "flake8"

def Formatter.tag : Formatter → String
  | .prettier => "prettier" | .biome => "biome" | .black => "black"

/-- The display-name map `formatLanguage` shared by generator.ts and cli.ts. -/
def formatLanguage : Language → String
  | .typescript => "TypeScript" | .javascript => "JavaScript"
  | .python => "Python" | .go => "Go" | .rust => "Rust" | .java => "Java"
  | .ruby => "Ruby" | .csharp => "C#" | .swift => "Swift"
  | .kotlin => "Kotlin" | .php => "PHP" | .cpp => "C++"

/-- The display-name map `formatFramework` shared by generator.ts and cli.ts. -/
def formatFramework : Framework → String
  | .nextjs => "Next.js" | .react => "React" | .vue => "Vue.js"
  | .nuxt => "Nuxt" | .svelte => "Svelte" | .sveltekit => "SvelteKit"
  | .angular => "Angular" | .astro => "Astro" | .remix => "Remix"
  | .gatsby => "Gatsby" | .solid => "Solid.js" | .express => "Express"
  | .nestjs => "NestJS" | .fastify => "Fastify" | .hono => "Hono"
  | .elysia => "Elysia" | .koa => "Koa" | .fastapi => "FastAPI"
  | .django => "Django" | .flask => "Flask" | .starlette => "Starlette"
  | .gin => "Gin" | .echo => "Echo" | .fiber => "Fiber"
  | .actix => "Actix" | .axum => "Axum" | .rocket => "Rocket"
  | .rails => "Rails" | .sinatra => "Sinatra" | .spring => "Spring"
  | .quarkus => "Quarkus" | .tailwind => "Tailwind CSS"
  | .shadcn => "shadcn/ui" | .chakra => "Chakra UI" | .mui => "Material UI"
  | .prisma => "Prisma" | .drizzle => "Drizzle" | .typeorm => "TypeORM"
  | .sequelize => "Sequelize" | .mongoose => "Mongoose"
  | .sqlalchemy => "SQLAlchemy"

/-- Boolean membership for tag lists (`Array.prototype.includes`). -/
def includes [DecidableEq α] (l : List α) (x : α) : Bool :=
  decide (x ∈ l)

-- ===========================================================================
-- Project analysis (analyzeRepository)
-- ===========================================================================

structure ProjectInfo where
  isExisting : Bool
  fileCount : Nat
  techStack : TechStack
  rootDir : String
  name : String
  description : Option String
  deriving Repr

/-- Last component of a slash-separated path, as `path.basename`. -/
def basename (p : String) : String :=
  (((splitOnChar '/' p.data).map String.mk).getLast?).getD p

/-- Function `analyzeRepository`: assemble project metadata around `detectTechStack`.
(`name` falls back to the directory basename when `packageJson?.name` is
falsy; `description` becomes `null` when falsy.) -/
def analyzeRepository (d : RepoDisk) (rootDir : String) : ProjectInfo :=
  let techStack := detectTechStack d
  let fileCount := countSourceFiles d
  let pkg := readPackageJson d
  { isExisting := fileCount > 0
    fileCount := fileCount
    techStack := techStack
    rootDir := rootDir
    name := match pkg with
      | some m => match m.name with
        | some s => if s == "" then basename rootDir else s
        | none => basename rootDir
      | none => basename rootDir
    description := match pkg with
      | some m => match m.description with
        | some s => if s == "" then none else some s
        | none => none
      | none => none }

/-- Function `summarizeTechStack` (cli.ts / analyzer.ts): the raw-tag summary joined
with a pipe separator. -/
def summarizeTechStack (stack : TechStack) : String :=
  let parts : List String := []
  let parts := parts ++ (match stack.primaryLanguage with
    | some l => ["Language: " ++ l.tag] | none => [])
  let parts := parts ++ (match stack.primaryFramework with
    | some f => ["Framework: " ++ f.tag] | none => [])
  let parts := parts ++ (match stack.packageManager with
    | some p => ["Package Manager: " ++ p.tag] | none => [])
  let parts := parts ++ (match stack.testingFramework with
    | some t => ["Testing: " ++ t.tag] | none => [])
  let parts := parts ++ (if stack.isMonorepo then ["Monorepo: yes"] else [])
  String.intercalate " | " parts

-- ===========================================================================
-- Artifact synthesis (src/generator.ts)
-- ===========================================================================

inductive ArtifactType
  | claudeMd | settings | skill | agent | rule | command
  deriving DecidableEq, Repr

structure GeneratedArtifact where
  type : ArtifactType
  path : String
  content : String
  isNew : Bool
  deriving DecidableEq, Repr

structure SkillDef where
  name : String
  description : String
  deriving DecidableEq, Repr

structure AgentDef where
  name : String
  description : String
  deriving DecidableEq, Repr

/-- Function `getCommonCommands`: the stack-conditional shell snippet of CLAUDE.md. -/
def getCommonCommands (stack : TechStack) : String :=
  let commands : List String :=
    match stack.packageManager with
    | some .bun =>
      ["# Install dependencies", "bun install", "",
       "# Run development server", "bun dev", "",
       "# Run tests", "bun test", "", "# Build", "bun run build"]
    | some .pnpm =>
      ["# Install dependencies", "pnpm install", "",
       "# Run development server", "pnpm dev", "", "# Run tests", "pnpm test"]
    | some .yarn =>
      ["# Install dependencies", "yarn", "",
       "# Run development server", "yarn dev", "", "# Run tests", "yarn test"]
    | some .npm =>
      ["# Install dependencies", "npm install", "",
       "# Run development server", "npm run dev", "", "# Run tests", "npm test"]
    | some .pip =>
      ["# Install dependencies", "pip install -r requirements.txt", "",
       "# Run tests", "pytest", "", "# Run server", "uvicorn main:app --reload"]
    | some .poetry =>
      ["# Install dependencies", "poetry install", "",
       "# Run tests", "pytest", "", "# Run server", "uvicorn main:app --reload"]
    | some .cargo =>
      ["# Build", "cargo build", "", "# Run tests", "cargo test", "",
       "# Run", "cargo run"]
    | some .go =>
      ["# Run tests", "go test ./...", "", "# Build", "go build", "",
       "# Run", "go run ."]
    | _ =>
      ["# No package manager detected", "# Add your common commands here"]
  let commands := commands ++
    (match stack.linter with
     | some lint =>
       ["", "# Lint"] ++
       (match lint with
        | .eslint =>
          [(if stack.packageManager = some .bun then "bun" else "npx") ++ " eslint ."]
        | .biome =>
          [(if stack.packageManager = some .bun then "bun" else "npx") ++ " biome check ."]
        | .ruff => ["ruff check ."]
        | .flake8 => [])
     | none => [])
  String.intercalate "\n" commands

/-- Function `getSkillsForStack`: the skill index embedded into CLAUDE.md. -/
def getSkillsForStack (stack : TechStack) : List SkillDef :=
  let skills : List SkillDef :=
    [⟨"pattern-discovery", "Finding codebase patterns"⟩,
     ⟨"systematic-debugging", "Debugging approach"⟩,
     ⟨"testing-methodology", "Testing strategy"⟩]
  let skills := skills ++ (if includes stack.frameworks .nextjs then
    [⟨"nextjs-patterns", "Next.js App Router patterns"⟩] else [])
  let skills := skills ++
    (if includes stack.frameworks .react || includes stack.frameworks .nextjs then
      [⟨"react-components", "React component patterns"⟩] else [])
  let skills := skills ++ (if includes stack.frameworks .fastapi then
    [⟨"fastapi-patterns", "FastAPI endpoint patterns"⟩] else [])
  let skills := skills ++ (if includes stack.frameworks .nestjs then
    [⟨"nestjs-patterns", "NestJS module patterns"⟩] else [])
  let skills := skills ++
    (if includes stack.frameworks .prisma || includes stack.frameworks .drizzle then
      [⟨"database-patterns", "Database and ORM patterns"⟩] else [])
  skills

/-- Function `getAgentsForStack`: the agent index embedded into CLAUDE.md. -/
def getAgentsForStack (stack : TechStack) : List AgentDef :=
  let agents : List AgentDef :=
    [⟨"code-reviewer", "Reviews code for quality and security"⟩,
     ⟨"test-writer", "Generates tests for code"⟩]
  agents ++ (if stack.hasDocker then
    [⟨"docker-helper", "Helps with Docker and containerization"⟩] else [])

/-- The `sections` array of `generateClaudeMd`, one element per pushed line
(the document is their `join("\n")`). -/
def claudeMdSections (info : ProjectInfo) : List String :=
  let stack := info.techStack
  ["# " ++ info.name, ""] ++
  (if truthy info.description then ["> " ++ info.description.getD "", ""] else []) ++
  ["## Start Here", "",
   "Check `.claude/state/task.md` for your current task.", ""] ++
  ["## Tech Stack", ""] ++
  (match stack.primaryLanguage with
   | some lang => ["- **Language**: " ++ formatLanguage lang] | none => []) ++
  (match stack.primaryFramework with
   | some fw => ["- **Framework**: " ++ formatFramework fw] | none => []) ++
  (match stack.packageManager with
   | some pm => ["- **Package Manager**: " ++ pm.tag] | none => []) ++
  (match stack.testingFramework with
   | some tf => ["- **Testing**: " ++ tf.tag] | none => []) ++
  (match stack.linter with
   | some li => ["- **Linter**: " ++ li.tag] | none => []) ++
  [""] ++
  ["## Commands", "", "| Command | Purpose |", "|---------|---------|",
   "| `/task <desc>` | Start or switch to a new task |",
   "| `/status` | Show current task state |",
   "| `/done` | Mark current task complete |",
   "| `/analyze <area>` | Deep-dive into specific code |", ""] ++
  ["## Common Operations", "", "```bash", getCommonCommands stack, "```", ""] ++
  ["## Rules", "",
   "1. **State First** - Always read `.claude/state/task.md` when resuming",
   "2. **One Task** - Focus on one thing at a time",
   "3. **Test Before Done** - Run tests before marking complete",
   "4. **Update State** - Keep task.md current as you work",
   "5. **Match Patterns** - Follow existing code conventions", ""] ++
  ["## Skills", "", "Reference these for specialized workflows:"] ++
  (getSkillsForStack stack).map
    (fun s => "- `.claude/skills/" ++ s.name ++ ".md` - " ++ s.description) ++
  [""] ++
  (let agents := getAgentsForStack stack
   if agents.length > 0 then
     ["## Agents", "", "Specialized agents available:"] ++
     agents.map (fun a => "- `" ++ a.name ++ "` - " ++ a.description) ++ [""]
   else []) ++
  ["## File References", "",
   "Use `path/to/file.ts:123` format when referencing code.", ""]

def generateClaudeMd (info : ProjectInfo) : GeneratedArtifact :=
  { type := .claudeMd
    path := ".claude/CLAUDE.md"
    content := String.intercalate "\n" (claudeMdSections info)
    isNew := true }

/-- The `permissions` array of `generateSettings`, in push order, before
deduplication. -/
def settingsPermissions (stack : TechStack) : List String :=
  ["Read(**)", "Edit(**)", "Write(.claude/**)", "Bash(git:*)"] ++
  (["npm", "yarn", "pnpm", "bun", "npx"].map (fun pm => "Bash(" ++ pm ++ ":*)")) ++
  (if includes stack.languages .typescript || includes stack.languages .javascript then
    ["Bash(node:*)", "Bash(tsc:*)"] else []) ++
  (if includes stack.languages .python then
    ["Bash(python:*)", "Bash(pip:*)", "Bash(poetry:*)", "Bash(pytest:*)",
     "Bash(uvicorn:*)"] else []) ++
  (if includes stack.languages .go then ["Bash(go:*)"] else []) ++
  (if includes stack.languages .rust then ["Bash(cargo:*)", "Bash(rustc:*)"] else []) ++
  (if includes stack.languages .ruby then
    ["Bash(ruby:*)", "Bash(bundle:*)", "Bash(rails:*)", "Bash(rake:*)"] else []) ++
  (match stack.testingFramework with
   | some tf =>
     (match tf with
      | .jest => ["Bash(jest:*)"]
      | .vitest => ["Bash(vitest:*)"]
      | .playwright => ["Bash(playwright:*)"]
      | .cypress => ["Bash(cypress:*)"]
      | .pytest => ["Bash(pytest:*)"]
      | .rspec => ["Bash(rspec:*)"]
      | _ => [])
   | none => []) ++
  (match stack.linter with
   | some li => ["Bash(" ++ li.tag ++ ":*)"] | none => []) ++
  (match stack.formatter with
   | some f => ["Bash(" ++ f.tag ++ ":*)"] | none => []) ++
  ["Bash(ls:*)", "Bash(mkdir:*)", "Bash(cat:*)", "Bash(echo:*)",
   "Bash(grep:*)", "Bash(find:*)"] ++
  (if stack.hasDocker then ["Bash(docker:*)", "Bash(docker-compose:*)"] else [])

/-- Render of `JSON.stringify(settings, null, 2)` for the settings object (indentation
layout approximated; the schema field and the deduplicated allow list are the
content). -/
def renderSettingsJson (allow : List String) : String :=
  "\x7b\n  \"$schema\": \"https://json.schemastore.org/claude-code-settings.json\",\n  \"permissions\": \x7b\n    \"allow\": [\n" ++
  String.intercalate ",\n" (allow.map (fun s => "      \"" ++ s ++ "\"")) ++
  "\n    ]\n  \x7d\n\x7d"

def generateSettings (stack : TechStack) : GeneratedArtifact :=
  { type := .settings
    path := ".claude/settings.json"
    -- `[...new Set(permissions)]` keeps the first occurrence of each entry
    content := renderSettingsJson (settingsPermissions stack).eraseDups
    isNew := true }

-- The static markdown bodies below are fixed string constants in the source
-- (several hundred lines of documentation prose).  They are abbreviated to
-- their front matter here; what matters for the verified properties is each
-- artifact's type and path and that its content is a constant.

def generatePatternDiscoverySkill : GeneratedArtifact :=
  { type := .skill
    path := ".claude/skills/pattern-discovery.md"
    content := "---\nname: pattern-discovery\ndescription: Analyze existing codebase to discover and document patterns\n---\n\n# Pattern Discovery\n"
    isNew := true }

def generateSystematicDebuggingSkill : GeneratedArtifact :=
  { type := .skill
    path := ".claude/skills/systematic-debugging.md"
    content := "---\nname: systematic-debugging\ndescription: Methodical approach to finding and fixing bugs\n---\n\n# Systematic Debugging\n"
    isNew := true }

/-- Function `getTestingExamples`: the per-framework example block (bodies
abbreviated). -/
def getTestingExamples (stack : TechStack) : String :=
  if stack.testingFramework = some .vitest || stack.testingFramework = some .jest then
    "```typescript\n// AAA example for " ++
    (stack.testingFramework.map TestingFramework.tag).getD "" ++ "\n```"
  else if stack.testingFramework = some .pytest then
    "```python\n# AAA example for pytest\n```"
  else if stack.testingFramework = some .goTest then
    "```go\n// AAA example for go test\n```"
  else
    "```\n// Add examples for your testing framework here\n```"

def generateTestingMethodologySkill (stack : TechStack) : GeneratedArtifact :=
  let testingFramework :=
    match stack.testingFramework with | some tf => tf.tag | none => "generic"
  { type := .skill
    path := ".claude/skills/testing-methodology.md"
    content := "---\nname: testing-methodology\ndescription: Testing patterns and best practices for this project\n---\n\n# Testing Methodology\n\nThis project uses: **" ++
      testingFramework ++ "**\n\n" ++ getTestingExamples stack ++ "\n"
    isNew := true }

def generateNextJsSkill : GeneratedArtifact :=
  { type := .skill
    path := ".claude/skills/nextjs-patterns.md"
    content := "---\nname: nextjs-patterns\ndescription: Next.js App Router patterns and best practices\n---\n\n# Next.js Patterns (App Router)\n"
    isNew := true }

def generateReactSkill : GeneratedArtifact :=
  { type := .skill
    path := ".claude/skills/react-components.md"
    content := "---\nname: react-components\ndescription: React component patterns and best practices\n---\n\n# React Component Patterns\n"
    isNew := true }

def generateFastAPISkill : GeneratedArtifact :=
  { type := .skill
    path := ".claude/skills/fastapi-patterns.md"
    content := "---\nname: fastapi-patterns\ndescription: FastAPI endpoint patterns and best practices\n---\n\n# FastAPI Patterns\n"
    isNew := true }

def generateNestJSSkill : GeneratedArtifact :=
  { type := .skill
    path := ".claude/skills/nestjs-patterns.md"
    content := "---\nname: nestjs-patterns\ndescription: NestJS module patterns and best practices\n---\n\n# NestJS Patterns\n"
    isNew := true }

def generateSkills (stack : TechStack) : List GeneratedArtifact :=
  [generatePatternDiscoverySkill, generateSystematicDebuggingSkill,
   generateTestingMethodologySkill stack] ++
  (if includes stack.frameworks .nextjs then [generateNextJsSkill] else []) ++
  (if includes stack.frameworks .react && !includes stack.frameworks .nextjs then
    [generateReactSkill] else []) ++
  (if includes stack.frameworks .fastapi then [generateFastAPISkill] else []) ++
  (if includes stack.frameworks .nestjs then [generateNestJSSkill] else [])

def getLintCommand (stack : TechStack) : String :=
  match stack.linter with
  | some .eslint =>
    (if stack.packageManager = some .bun then "bun" else "npx") ++ " eslint ."
  | some .biome =>
    (if stack.packageManager = some .bun then "bun" else "npx") ++ " biome check ."
  | some .ruff => "ruff check ."
  | _ => ""

def getTestCommand (stack : TechStack) : String :=
  let pmStr := match stack.packageManager with | some pm => pm.tag | none => "npm"
  match stack.testingFramework with
  | some .vitest =>
    pmStr ++ " " ++ (if stack.packageManager = some .npm then "run " else "") ++ "test"
  | some .jest =>
    pmStr ++ " " ++ (if stack.packageManager = some .npm then "run " else "") ++ "test"
  | some .bunTest => "bun test"
  | some .pytest => "pytest"
  | some .goTest => "go test ./..."
  | some .rustTest => "cargo test"
  | _ => pmStr ++ " test"

def generateCodeReviewerAgent (stack : TechStack) : GeneratedArtifact :=
  let lintCommand := getLintCommand stack
  { type := .agent
    path := ".claude/agents/code-reviewer.md"
    content := "---\nname: code-reviewer\ndescription: Reviews code for quality, security issues, and best practices\ntools: Read, Grep, Glob" ++
      (if lintCommand != "" then ", Bash(" ++ lintCommand ++ ")" else "") ++
      "\ndisallowedTools: Write, Edit\nmodel: sonnet\n---\n\nYou are a senior code reviewer with expertise in security and performance.\n"
    isNew := true }

def generateTestWriterAgent (stack : TechStack) : GeneratedArtifact :=
  let testCommand := getTestCommand stack
  { type := .agent
    path := ".claude/agents/test-writer.md"
    content := "---\nname: test-writer\ndescription: Generates comprehensive tests for code\ntools: Read, Grep, Glob, Write, Edit, Bash(" ++
      testCommand ++ ")\nmodel: sonnet\n---\n\nThis project uses: **" ++
      (match stack.testingFramework with | some tf => tf.tag | none => "unknown") ++
      "**\n"
    isNew := true }

def generateAgents (stack : TechStack) : List GeneratedArtifact :=
  [generateCodeReviewerAgent stack, generateTestWriterAgent stack]

def generateTypeScriptRules : GeneratedArtifact :=
  { type := .rule
    path := ".claude/rules/typescript.md"
    content := "---\npaths: **/*.ts **/*.tsx\n---\n\n# TypeScript Rules\n"
    isNew := true }

def generatePythonRules : GeneratedArtifact :=
  { type := .rule
    path := ".claude/rules/python.md"
    content := "---\npaths: **/*.py\n---\n\n# Python Rules\n"
    isNew := true }

def generateCodeStyleRule (stack : TechStack) : GeneratedArtifact :=
  { type := .rule
    path := ".claude/rules/code-style.md"
    content := "# Code Style\n\n## Formatting\n\n" ++
      (match stack.formatter with
       | some f => "This project uses **" ++ f.tag ++
           "** for formatting. Run it before committing."
       | none => "Format code consistently with the existing codebase.") ++
      "\n\n" ++
      (match stack.linter with
       | some li => "This project uses **" ++ li.tag ++
           "** for linting. Fix all warnings."
       | none => "") ++ "\n"
    isNew := true }

def generateRules (stack : TechStack) : List GeneratedArtifact :=
  (if includes stack.languages .typescript then [generateTypeScriptRules] else []) ++
  (if includes stack.languages .python then [generatePythonRules] else []) ++
  [generateCodeStyleRule stack]

def generateTaskCommand : GeneratedArtifact :=
  { type := .command
    path := ".claude/commands/task.md"
    content := "---\nallowed-tools: Read, Write, Edit, Glob, Grep\nargument-hint: [task description]\ndescription: Start or switch to a new task\n---\n\n# Start Task\n"
    isNew := true }

def generateStatusCommand : GeneratedArtifact :=
  { type := .command
    path := ".claude/commands/status.md"
    content := "---\nallowed-tools: Read, Glob\ndescription: Show current task and session state\n---\n\n# Status Check\n"
    isNew := true }

def generateDoneCommand : GeneratedArtifact :=
  { type := .command
    path := ".claude/commands/done.md"
    content := "---\nallowed-tools: Read, Write, Edit, Glob, Bash(git diff), Bash(git status)\ndescription: Mark current task complete\n---\n\n# Complete Task\n"
    isNew := true }

def generateAnalyzeCommand : GeneratedArtifact :=
  { type := .command
    path := ".claude/commands/analyze.md"
    content := "---\nallowed-tools: Read, Glob, Grep\nargument-hint: [area to analyze]\ndescription: Deep analysis of a specific area\n---\n\n# Analyze\n"
    isNew := true }

def generateCommands : List GeneratedArtifact :=
  [generateTaskCommand, generateStatusCommand, generateDoneCommand,
   generateAnalyzeCommand]

structure GenerationResult where
  artifacts : List GeneratedArtifact
  summaryCreated : Nat
  summaryUpdated : Nat
  summarySkipped : Nat
  deriving Repr

/-- Disk contents as the writer sees them: absolute path → file bytes. -/
abbrev WDisk : Type := String → Option String

/-- Function `generateArtifacts`: assemble all artifacts, then mark `isNew` from disk
existence at `rootDir`-relative paths. -/
def generateArtifacts (info : ProjectInfo) (disk : WDisk) : GenerationResult :=
  let artifacts :=
    [generateClaudeMd info, generateSettings info.techStack] ++
    generateSkills info.techStack ++
    generateAgents info.techStack ++
    generateRules info.techStack ++
    generateCommands
  let artifacts := artifacts.map fun a =>
    { a with isNew := !(disk (joinPath info.rootDir a.path)).isSome }
  { artifacts := artifacts
    summaryCreated := (artifacts.filter (fun a => a.isNew)).length
    summaryUpdated := (artifacts.filter (fun a => !a.isNew)).length
    summarySkipped := 0 }

-- ===========================================================================
-- Write coordinator (writeArtifacts)
-- ===========================================================================

/-- The preservation predicate of `writeArtifacts`:
`artifact.path.includes("state/task.md") || artifact.path === ".claude/CLAUDE.md"`. -/
def shouldPreserve (a : GeneratedArtifact) : Bool :=
  containsSubstr a.path "state/task.md" || a.path == ".claude/CLAUDE.md"

structure WriteResult where
  created : List String
  updated : List String
  skipped : List String
  disk : WDisk

/-- Function `writeArtifacts`: one pass over the artifacts, threading the disk.
`mkdirSync(dir, recursive: true)` only creates directories and the disk maps
file paths, so it has no footprint here; each `writeFileSync` updates the
disk at the joined absolute path. -/
def writeArtifacts (arts : List GeneratedArtifact) (rootDir : String)
    (force : Bool) (d : WDisk) : WriteResult :=
  match arts with
  | [] => ⟨[], [], [], d⟩
  | a :: rest =>
    let fullPath := joinPath rootDir a.path
    let ex := (d fullPath).isSome
    if ex && !force && shouldPreserve a then
      let r := writeArtifacts rest rootDir force d
      ⟨r.created, r.updated, a.path :: r.skipped, r.disk⟩
    else
      let d1 : WDisk := fun p => if p = fullPath then some a.content else d p
      let r := writeArtifacts rest rootDir force d1
      if ex then ⟨r.created, a.path :: r.updated, r.skipped, r.disk⟩
      else ⟨a.path :: r.created, r.updated, r.skipped, r.disk⟩

-- ===========================================================================
-- Task-file creation (src/cli.ts, createTaskFile)
-- ===========================================================================

structure NewProjectPreferences where
  description : String
  primaryLanguage : Language
  framework : Option Framework
  includeTests : Bool
  includeLinting : Bool
  deriving Repr

/-- The content `createTaskFile` writes (when `.claude/state/task.md` does not
already exist), as its list of lines; the file is their `join("\n")`. -/
def createTaskFileLines (info : ProjectInfo)
    (preferences : Option NewProjectPreferences) : List String :=
  if info.isExisting then
    ["# Current Task", "", "## Status: Ready", "",
     "No active task. Start one with `/task <description>`.", "",
     "## Project Summary", "",
     info.name ++ (if truthy info.description then
       " - " ++ info.description.getD "" else ""),
     "", "**Tech Stack:** " ++ summarizeTechStack info.techStack, "",
     "## Quick Commands", "",
     "- `/task` - Start working on something",
     "- `/status` - See current state",
     "- `/analyze` - Deep dive into code",
     "- `/done` - Mark task complete", ""]
  else
    let description := match preferences with
      | some p => if p.description != "" then p.description
                  else "Explore and set up project"
      | none => "Explore and set up project"
    ["# Current Task", "", "## Status: In Progress", "",
     "**Task:** " ++ description, "", "## Context", "",
     "New project - setting up from scratch.", "",
     (match preferences with
      | some p => match p.framework with
        | some f => "**Framework:** " ++ formatFramework f
        | none => ""
      | none => ""),
     (match preferences with
      | some p => "**Language:** " ++ formatLanguage p.primaryLanguage
      | none => ""),
     "", "## Next Steps", "",
     "1. Define project structure",
     "2. Set up development environment",
     "3. Start implementation", "",
     "## Decisions", "", "(None yet - starting fresh)", ""]

def createTaskFileContent (info : ProjectInfo)
    (preferences : Option NewProjectPreferences) : String :=
  String.intercalate "\n" (createTaskFileLines info preferences)

/-- A document "records no active task" when one of its lines opens with the
`No active task` marker. -/
def recordsNoActiveTask (lines : List String) : Bool :=
  lines.any fun l => strStartsWith l "No active task"

-- ===========================================================================
-- Predicates used in statements, and concrete example inputs
-- ===========================================================================

/-- Membership in the front-end (mutually exclusive) framework group. -/
def isFrontendTag : Framework → Bool
  | .nextjs | .react | .vue | .nuxt | .svelte | .sveltekit | .angular
  | .astro | .remix | .gatsby | .solid => true
  | _ => false

/-- An optional file whose read (if it exists) succeeds. -/
def readOk : Option (Except Unit String) → Bool
  | some (.error _) => false
  | _ => true

/-- Every fallback declaration file is absent or readable. -/
def fallbackReadsOk (d : RepoDisk) : Bool :=
  readOk d.requirementsTxt && readOk d.pyprojectToml && readOk d.gemfile &&
  readOk d.goMod && readOk d.cargoToml

def mNextReact : Manifest :=
  { dependencies := [("next", "14.0.0"), ("react", "18.2.0")] }

def mNuxtVue : Manifest :=
  { dependencies := [("nuxt", "3.0.0"), ("vue", "3.3.0")] }

def nextReactDisk : RepoDisk :=
  { rootEntries := .ok ["package.json"], pkgJson := some (.ok (.wf mNextReact)) }

def nuxtVueDisk : RepoDisk :=
  { rootEntries := .ok ["package.json"], pkgJson := some (.ok (.wf mNuxtVue)) }

/-- An empty project directory: no entries, no manifest, no trees. -/
def emptyDisk : RepoDisk := {}

/-- The project info an empty directory named `project` analyzes to. -/
def emptyInfo : ProjectInfo := analyzeRepository emptyDisk "project"

/-- A disk whose `requirements.txt` exists but whose read throws. -/
def unreadableReqDisk : RepoDisk := { requirementsTxt := some (.error ()) }

/-- An artifact whose path contains `state/task.md` without being the
task-tracking document `.claude/state/task.md`. -/
def preservedCexArtifact : GeneratedArtifact :=
  { type := .command, path := "notes/state/task.md",
    content := "regenerated content", isNew := false }

def preservedCexDisk : WDisk :=
  fun p => if p = "root/notes/state/task.md" then some "user edits" else none

/-- The everywhere-empty writer disk. -/
def emptyWDisk : WDisk := fun _ => none

def wArtA : GeneratedArtifact :=
  { type := .skill, path := ".claude/skills/a.md", content := "A", isNew := true }

def wArtB : GeneratedArtifact :=
  { type := .skill, path := ".claude/skills/b.md", content := "B", isNew := true }

/-- The task-tracking artifact at its canonical path. -/
def taskArtifact : GeneratedArtifact :=
  { type := .command, path := ".claude/state/task.md",
    content := "fresh", isNew := false }

/-- A prior disk carrying user-edited task state. -/
def taskDisk : WDisk :=
  fun p => if p = "root/.claude/state/task.md" then some "user task state" else none

-- ===========================================================================
-- Lemmas about the detector combinators
-- ===========================================================================

theorem applyChecks_nil [DecidableEq α] (l : List α) :
    applyChecks ([] : List (Bool × α)) l = l := rfl

theorem applyChecks_cons [DecidableEq α] (c : Bool × α) (cs : List (Bool × α))
    (l : List α) : applyChecks (c :: cs) l = applyChecks cs (addIf c.1 c.2 l) := rfl

theorem applyChecks_append [DecidableEq α] (cs ds : List (Bool × α)) (l : List α) :
    applyChecks (cs ++ ds) l = applyChecks ds (applyChecks cs l) :=
  List.foldl_append ..

theorem add_ne_nil [DecidableEq α] (x : α) (l : List α) : add x l ≠ [] := by
  unfold add
  split
  · rename_i h
    intro he
    subst he
    simp at h
  · simp

theorem addIf_ne_nil [DecidableEq α] (b : Bool) (x : α) {l : List α}
    (h : l ≠ []) : addIf b x l ≠ [] := by
  unfold addIf
  split
  · exact add_ne_nil x l
  · exact h

theorem head?_add [DecidableEq α] (x : α) {l : List α} (h : l ≠ []) :
    (add x l).head? = l.head? := by
  unfold add
  split
  · rfl
  · cases l with
    | nil => exact absurd rfl h
    | cons a t => simp

theorem head?_addIf [DecidableEq α] (b : Bool) (x : α) {l : List α}
    (h : l ≠ []) : (addIf b x l).head? = l.head? := by
  unfold addIf
  split
  · exact head?_add x h
  · rfl

theorem not_mem_add [DecidableEq α] {y x : α} (hxy : x ≠ y) {l : List α}
    (h : y ∉ l) : y ∉ add x l := by
  unfold add
  split
  · exact h
  · simp [h, hxy, Ne.symm hxy]

theorem not_mem_addIf [DecidableEq α] {y x : α} (b : Bool) (hxy : x ≠ y)
    {l : List α} (h : y ∉ l) : y ∉ addIf b x l := by
  unfold addIf
  split
  · exact not_mem_add hxy h
  · exact h

theorem nodup_add [DecidableEq α] (x : α) {l : List α} (h : l.Nodup) :
    (add x l).Nodup := by
  unfold add
  split
  · exact h
  · rename_i hx
    simp [List.nodup_append, h, hx]

theorem nodup_addIf [DecidableEq α] (b : Bool) (x : α) {l : List α}
    (h : l.Nodup) : (addIf b x l).Nodup := by
  unfold addIf
  split
  · exact nodup_add x h
  · exact h

theorem filter_add [DecidableEq α] {q : α → Bool} {x : α} (hx : q x = false)
    (l : List α) : (add x l).filter q = l.filter q := by
  unfold add
  split
  · rfl
  · simp [List.filter_append, hx]

theorem filter_addIf [DecidableEq α] {q : α → Bool} (b : Bool) {x : α}
    (hx : q x = false) (l : List α) : (addIf b x l).filter q = l.filter q := by
  unfold addIf
  split
  · exact filter_add hx l
  · rfl

theorem applyChecks_ne_nil [DecidableEq α] (checks : List (Bool × α))
    {l : List α} (h : l ≠ []) : applyChecks checks l ≠ [] := by
  induction checks generalizing l with
  | nil => exact h
  | cons c cs ih => exact ih (addIf_ne_nil c.1 c.2 h)

theorem head?_applyChecks [DecidableEq α] (checks : List (Bool × α))
    {l : List α} (h : l ≠ []) : (applyChecks checks l).head? = l.head? := by
  induction checks generalizing l with
  | nil => rfl
  | cons c cs ih =>
    rw [applyChecks_cons, ih (addIf_ne_nil c.1 c.2 h), head?_addIf c.1 c.2 h]

theorem not_mem_applyChecks [DecidableEq α] {y : α} (checks : List (Bool × α))
    (hy : ∀ p ∈ checks, p.2 ≠ y) {l : List α} (h : y ∉ l) :
    y ∉ applyChecks checks l := by
  induction checks generalizing l with
  | nil => exact h
  | cons c cs ih =>
    rw [applyChecks_cons]
    exact ih (fun p hp => hy p (List.mem_cons_of_mem c hp))
      (not_mem_addIf c.1 (hy c (List.mem_cons_self c cs)) h)

theorem nodup_applyChecks [DecidableEq α] (checks : List (Bool × α))
    {l : List α} (h : l.Nodup) : (applyChecks checks l).Nodup := by
  induction checks generalizing l with
  | nil => exact h
  | cons c cs ih => exact ih (nodup_addIf c.1 c.2 h)

theorem filter_applyChecks [DecidableEq α] {q : α → Bool}
    (checks : List (Bool × α)) (hq : ∀ p ∈ checks, q p.2 = false)
    (l : List α) : (applyChecks checks l).filter q = l.filter q := by
  induction checks generalizing l with
  | nil => rfl
  | cons c cs ih =>
    rw [applyChecks_cons, ih (fun p hp => hq p (List.mem_cons_of_mem c hp)),
      filter_addIf c.1 (hq c (List.mem_cons_self c cs))]

-- ===========================================================================
-- Lemmas about the write coordinator
-- ===========================================================================

theorem writeArtifacts_cons (a : GeneratedArtifact) (rest : List GeneratedArtifact)
    (root : String) (force : Bool) (d : WDisk) :
    writeArtifacts (a :: rest) root force d =
      if (d (joinPath root a.path)).isSome && !force && shouldPreserve a then
        let r := writeArtifacts rest root force d
        ⟨r.created, r.updated, a.path :: r.skipped, r.disk⟩
      else
        let d1 : WDisk :=
          fun p => if p = joinPath root a.path then some a.content else d p
        let r := writeArtifacts rest root force d1
        if (d (joinPath root a.path)).isSome then
          ⟨r.created, a.path :: r.updated, r.skipped, r.disk⟩
        else ⟨a.path :: r.created, r.updated, r.skipped, r.disk⟩ := rfl

/-- Paths outside the artifact set are untouched by a write run. -/
theorem writeArtifacts_frame (root : String) (force : Bool) :
    ∀ (arts : List GeneratedArtifact) (d : WDisk) (p : String),
      p ∉ arts.map (fun a => joinPath root a.path) →
      (writeArtifacts arts root force d).disk p = d p := by
  intro arts
  induction arts with
  | nil => intro d p _; rfl
  | cons a rest ih =>
    intro d p hp
    rw [List.map_cons, List.mem_cons] at hp
    push_neg at hp
    obtain ⟨hp1, hp2⟩ := hp
    rw [writeArtifacts_cons]
    split
    · exact ih d p hp2
    · split
      · rw [ih _ p hp2]
        simp [hp1]
      · rw [ih _ p hp2]
        simp [hp1]

/-- The three outcome lists together are a permutation of the artifact
paths. -/
theorem writeArtifacts_outcome_perm (root : String) (force : Bool) :
    ∀ (arts : List GeneratedArtifact) (d : WDisk),
      ((writeArtifacts arts root force d).created ++
       (writeArtifacts arts root force d).updated ++
       (writeArtifacts arts root force d).skipped).Perm
        (arts.map fun a => a.path) := by
  intro arts
  induction arts with
  | nil => intro d; simp [writeArtifacts]
  | cons a rest ih =>
    intro d
    rw [writeArtifacts_cons, List.map_cons]
    split
    · exact List.perm_middle.trans ((ih d).cons a.path)
    · split
      · exact ((List.perm_middle).append_right _).trans ((ih _).cons a.path)
      · exact (ih _).cons a.path

/-- C1 (amended): for every artifact list with pairwise-distinct absolute
target paths and every prior disk, a preserved path — one containing the
substring `state/task.md` (in particular the task-tracking document
`.claude/state/task.md`) or equal to the primary instructions document
`.claude/CLAUDE.md` — that already exists is reported skipped and its content
left unchanged on a non-forced run; in every other situation (non-preserved
path, absent file, or forced run) the artifact's freshly synthesized content
is written, the path reported `updated` if a file existed there and `created`
otherwise. -/
theorem writeArtifacts_merge_policy (root : String) (force : Bool) :
    ∀ (arts : List GeneratedArtifact) (d : WDisk) (a : GeneratedArtifact),
      (arts.map fun x => joinPath root x.path).Nodup →
      a ∈ arts →
      (((d (joinPath root a.path)).isSome = true ∧ force = false ∧
         shouldPreserve a = true) →
        (a.path ∈ (writeArtifacts arts root force d).skipped ∧
         (writeArtifacts arts root force d).disk (joinPath root a.path) =
           d (joinPath root a.path))) ∧
      (¬((d (joinPath root a.path)).isSome = true ∧ force = false ∧
          shouldPreserve a = true) →
        ((writeArtifacts arts root force d).disk (joinPath root a.path) =
           some a.content ∧
         ((d (joinPath root a.path)).isSome = true →
           a.path ∈ (writeArtifacts arts root force d).updated) ∧
         ((d (joinPath root a.path)).isSome = false →
           a.path ∈ (writeArtifacts arts root force d).created))) := by
  intro arts
  induction arts with
  | nil => intro d a _ ha; cases ha
  | cons a0 rest ih =>
    intro d a hnd ha
    rw [List.map_cons, List.nodup_cons] at hnd
    obtain ⟨h0, hndrest⟩ := hnd
    rcases List.mem_cons.mp ha with rfl | hmem
    · -- the artifact at the head of the list
      constructor
      · rintro ⟨hex, hforce, hpres⟩
        rw [writeArtifacts_cons,
          if_pos (show ((d (joinPath root a.path)).isSome && !force &&
            shouldPreserve a) = true by rw [hex, hforce, hpres]; rfl)]
        exact ⟨List.mem_cons_self _ _, writeArtifacts_frame root force rest d _ h0⟩
      · intro hneg
        have hcond : ¬(((d (joinPath root a.path)).isSome && !force &&
            shouldPreserve a) = true) := by
          intro hc
          rw [Bool.and_eq_true, Bool.and_eq_true, Bool.not_eq_true'] at hc
          exact hneg ⟨hc.1.1, hc.1.2, hc.2⟩
        rw [writeArtifacts_cons, if_neg hcond]
        have hframe :=
          writeArtifacts_frame root force rest
            (fun p => if p = joinPath root a.path then some a.content else d p)
            (joinPath root a.path) h0
        by_cases hex : (d (joinPath root a.path)).isSome = true
        · rw [if_pos hex]
          exact ⟨hframe.trans (if_pos rfl), fun _ => List.mem_cons_self _ _,
            fun hf => absurd hex (by rw [hf]; exact Bool.false_ne_true)⟩
        · rw [if_neg hex]
          exact ⟨hframe.trans (if_pos rfl), fun h => absurd h hex,
            fun _ => List.mem_cons_self _ _⟩
    · -- the artifact inside the tail
      have hfpa : joinPath root a.path ∈ rest.map fun x => joinPath root x.path :=
        List.mem_map_of_mem _ hmem
      have hne : joinPath root a.path ≠ joinPath root a0.path :=
        fun h => h0 (h ▸ hfpa)
      rw [writeArtifacts_cons]
      by_cases hc :
          ((d (joinPath root a0.path)).isSome && !force && shouldPreserve a0) = true
      · rw [if_pos hc]
        obtain ⟨H1, H2⟩ := ih d a hndrest hmem
        exact ⟨fun hyp => ⟨List.mem_cons_of_mem _ (H1 hyp).1, (H1 hyp).2⟩,
          fun hyp => H2 hyp⟩
      · rw [if_neg hc]
        have hd1 : (if joinPath root a.path = joinPath root a0.path then
            some a0.content else d (joinPath root a.path)) =
            d (joinPath root a.path) := if_neg hne
        obtain ⟨H1, H2⟩ := ih
          (fun p => if p = joinPath root a0.path then some a0.content else d p)
          a hndrest hmem
        rw [hd1] at H1 H2
        by_cases hex0 : (d (joinPath root a0.path)).isSome = true
        · rw [if_pos hex0]
          exact ⟨fun hyp => H1 hyp,
            fun hyp => ⟨(H2 hyp).1,
              fun hex => List.mem_cons_of_mem _ ((H2 hyp).2.1 hex),
              (H2 hyp).2.2⟩⟩
        · rw [if_neg hex0]
          exact ⟨fun hyp => H1 hyp,
            fun hyp => ⟨(H2 hyp).1, (H2 hyp).2.1,
              fun hex => List.mem_cons_of_mem _ ((H2 hyp).2.2 hex)⟩⟩

/-- Witness for the merge policy: the canonical task-tracking document with
user content on disk is skipped and kept intact by a non-forced run. -/
theorem writeArtifacts_merge_policy_witness :
    taskArtifact.path ∈ (writeArtifacts [taskArtifact] "root" false taskDisk).skipped ∧
    (writeArtifacts [taskArtifact] "root" false taskDisk).disk
      (joinPath "root" taskArtifact.path) =
      taskDisk (joinPath "root" taskArtifact.path) :=
  (writeArtifacts_merge_policy "root" false [taskArtifact] taskDisk taskArtifact
    (by decide) (by decide)).1 ⟨by decide, rfl, by decide⟩

/-- C1 counterexample: an artifact whose path is neither the task-tracking
document `.claude/state/task.md` nor `.claude/CLAUDE.md` — hence non-preserved
as the claim enumerates the preserved set — exists on disk and yet a
non-forced run reports it skipped, not updated, and leaves the old content in
place, because the code preserves every path containing the substring
`state/task.md`. -/
theorem writeArtifacts_preserve_cex :
    preservedCexArtifact.path ≠ ".claude/state/task.md" ∧
    preservedCexArtifact.path ≠ ".claude/CLAUDE.md" ∧
    (preservedCexDisk (joinPath "root" preservedCexArtifact.path)).isSome = true ∧
    (writeArtifacts [preservedCexArtifact] "root" false preservedCexDisk).updated = [] ∧
    (writeArtifacts [preservedCexArtifact] "root" false preservedCexDisk).skipped =
      ["notes/state/task.md"] ∧
    (writeArtifacts [preservedCexArtifact] "root" false preservedCexDisk).disk
      "root/notes/state/task.md" = some "user edits" := by
  decide

/-- C2: the three outcome lists of a write run partition the artifact paths:
together they are a permutation of the path list, and under pairwise-distinct
paths no path appears twice. -/
theorem writeArtifacts_partition (arts : List GeneratedArtifact) (root : String)
    (force : Bool) (d : WDisk) :
    ((writeArtifacts arts root force d).created ++
     (writeArtifacts arts root force d).updated ++
     (writeArtifacts arts root force d).skipped).Perm
      (arts.map fun a => a.path) ∧
    ((arts.map fun a => a.path).Nodup →
      ((writeArtifacts arts root force d).created ++
       (writeArtifacts arts root force d).updated ++
       (writeArtifacts arts root force d).skipped).Nodup) :=
  ⟨writeArtifacts_outcome_perm root force arts d,
   fun h => (writeArtifacts_outcome_perm root force arts d).symm.nodup h⟩

/-- Witness for the partition: two distinct-path artifacts yield outcome
lists with no duplicate path. -/
theorem writeArtifacts_partition_witness :
    ((writeArtifacts [wArtA, wArtB] "root" false emptyWDisk).created ++
     (writeArtifacts [wArtA, wArtB] "root" false emptyWDisk).updated ++
     (writeArtifacts [wArtA, wArtB] "root" false emptyWDisk).skipped).Nodup :=
  (writeArtifacts_partition [wArtA, wArtB] "root" false emptyWDisk).2 (by decide)

/-- C10: when the `.claude` directory exists `hasClaudeConfig` is true with
exactly the recursively collected relative file paths — in particular true
with an empty file list for an empty directory; when it is absent, the result
is governed by the root `CLAUDE.md` legacy check alone. -/
theorem detectExistingClaudeConfig_spec :
    (∀ (es : List Entry) (b : Bool),
      detectExistingClaudeConfig (some es) b = (true, entriesFiles es ".claude")) ∧
    (∀ b : Bool, detectExistingClaudeConfig (some []) b = (true, [])) ∧
    detectExistingClaudeConfig none true = (true, ["CLAUDE.md"]) ∧
    detectExistingClaudeConfig none false = (false, []) :=
  ⟨fun _ _ => rfl, fun _ => rfl, rfl, rfl⟩

/-- C5: `detectPackageManager` is the first-match resolution of its ordered
(predicate, tag) chain, and a bun lock file wins over any slower manager's
lock file. -/
theorem detectPackageManager_first_match :
    (∀ files : List String, detectPackageManager files =
      ((pmChain files).find? (fun p => p.1)).map (fun p => p.2)) ∧
    (∀ files : List String,
      (files.contains "bun.lockb" || files.contains "bun.lock") = true →
      (files.contains "pnpm-lock.yaml" || files.contains "yarn.lock" ||
       files.contains "package-lock.json") = true →
      detectPackageManager files = some PackageManager.bun) := by
  constructor
  · intro files
    have hchain : ∀ l : List (Bool × PackageManager),
        ifChain l = (l.find? (fun p => p.1)).map (fun p => p.2) := by
      intro l
      induction l with
      | nil => rfl
      | cons p rest ih =>
        obtain ⟨b, x⟩ := p
        cases b with
        | true => rfl
        | false => simpa [ifChain, List.find?] using ih
    exact (show detectPackageManager files = ifChain (pmChain files) from rfl).trans
      (hchain (pmChain files))
  · intro files hbun _
    unfold detectPackageManager
    rw [if_pos hbun]

/-- Witness: a listing with both a bun lock file and a yarn lock file resolves
to bun. -/
theorem detectPackageManager_first_match_witness :
    detectPackageManager ["bun.lockb", "yarn.lock"] = some PackageManager.bun :=
  detectPackageManager_first_match.2 ["bun.lockb", "yarn.lock"]
    (by decide) (by decide)

/-- C4: under TypeScript evidence, even in the presence of independent
JavaScript evidence, the language sequence starts with `typescript` and does
not contain `javascript`. -/
theorem detectLanguages_ts_suppresses_js :
    ∀ (files : List String) (pkg : Option Manifest),
      tsEvidence files pkg = true → jsEvidence files pkg = true →
      (detectLanguages files pkg).head? = some Language.typescript ∧
      Language.javascript ∉ detectLanguages files pkg := by
  intro files pkg hts _
  have h1 : addIf (tsEvidence files pkg) Language.typescript [] =
      [Language.typescript] := by rw [hts]; rfl
  have h2 : ∀ b : Bool,
      addIf (b && !(decide (Language.typescript ∈ [Language.typescript])))
        Language.javascript [Language.typescript] = [Language.typescript] := by
    intro b; simp [addIf]
  have hrest : ∀ p ∈ langChecks files, p.2 ≠ Language.javascript := by
    intro p hp
    simp only [langChecks, List.mem_cons, List.not_mem_nil, or_false] at hp
    rcases hp with rfl | rfl | rfl | rfl | rfl | rfl | rfl | rfl | rfl <;> simp
  simp only [detectLanguages]
  rw [h1, h2]
  constructor
  · exact head?_applyChecks _ (by simp)
  · exact not_mem_applyChecks _ hrest (by simp)

/-- Witness: a listing with `tsconfig.json` and a `.js` file yields
typescript-first languages without a javascript tag. -/
theorem detectLanguages_ts_suppresses_js_witness :
    (detectLanguages ["tsconfig.json", "index.js"] none).head? =
      some Language.typescript ∧
    Language.javascript ∉ detectLanguages ["tsconfig.json", "index.js"] none :=
  detectLanguages_ts_suppresses_js ["tsconfig.json", "index.js"] none
    (by decide) (by decide)

/-- C6: language and framework sequences never contain duplicate tags, and in
particular double Python evidence (requirements.txt and pyproject.toml)
yields exactly one `python` occurrence. -/
theorem detect_no_duplicates :
    (∀ (files : List String) (pkg : Option Manifest),
      (detectLanguages files pkg).Nodup) ∧
    (∀ (pkg : Option Manifest) (files : List String) (t : FallbackTexts),
      (detectFrameworks pkg files t).Nodup) ∧
    (detectLanguages ["requirements.txt", "pyproject.toml"] none).count
      Language.python = 1 := by
  refine ⟨?_, ?_, by decide⟩
  · intro files pkg
    unfold detectLanguages
    exact nodup_applyChecks _ (nodup_addIf _ _ (nodup_addIf _ _ List.nodup_nil))
  · intro pkg files t
    cases pkg with
    | none =>
      simp only [detectFrameworks, detectFrameworksFallback]
      exact nodup_applyChecks _ List.nodup_nil
    | some m =>
      simp only [detectFrameworks, detectFrameworksFromManifest]
      cases (frontendChain m).find? (fun p => p.1) with
      | none => exact nodup_applyChecks _ List.nodup_nil
      | some p => exact nodup_applyChecks _ (nodup_add _ List.nodup_nil)

/-- C3: with a `next` dependency present, the front-end group contributes
exactly the `nextjs` tag whatever else the manifest declares; concretely, a
manifest with exactly `next` and `react` classifies as `frameworks = [nextjs]`
with `primaryFramework = nextjs`, and one with exactly `nuxt` and `vue` as
`[nuxt]`. -/
theorem detectFrameworks_meta_exclusive :
    (∀ (m : Manifest) (files : List String), hasDep m "next" = true →
      (detectFrameworksFromManifest m files).filter isFrontendTag =
        [Framework.nextjs]) ∧
    (detectTechStack nextReactDisk).frameworks = [Framework.nextjs] ∧
    (detectTechStack nextReactDisk).primaryFramework = some Framework.nextjs ∧
    (detectTechStack nuxtVueDisk).frameworks = [Framework.nuxt] ∧
    (detectTechStack nuxtVueDisk).primaryFramework = some Framework.nuxt := by
  constructor
  · intro m files hnext
    have hmc : ∀ p ∈ manifestChecks m files, isFrontendTag p.2 = false := by
      intro p hp
      simp only [manifestChecks, List.mem_cons, List.not_mem_nil, or_false] at hp
      rcases hp with rfl|rfl|rfl|rfl|rfl|rfl|rfl|rfl|rfl|rfl|rfl|rfl|rfl|rfl|rfl <;>
        rfl
    have hfind : (frontendChain m).find? (fun p => p.1) =
        some (hasDep m "next", Framework.nextjs) := by
      simp only [frontendChain, List.find?]
      rw [hnext]
    simp only [detectFrameworksFromManifest]
    rw [hfind, filter_applyChecks _ hmc]
    rfl
  · exact ⟨rfl, rfl, rfl, rfl⟩

/-- Witness: the next+react manifest keeps only the meta-framework tag in the
front-end group. -/
theorem detectFrameworks_meta_exclusive_witness :
    (detectFrameworksFromManifest mNextReact ["package.json"]).filter
      isFrontendTag = [Framework.nextjs] :=
  detectFrameworks_meta_exclusive.1 mNextReact ["package.json"] (by decide)

theorem eq_of_mem_ite_singleton {c : Prop} [Decidable c] {x b : α}
    (h : b ∈ if c then [x] else []) : b = x := by
  split at h
  · exact List.mem_singleton.mp h
  · cases h

/-- Every artifact the synthesizer produces targets the reserved `.claude/`
subtree. -/
theorem generateArtifacts_paths :
    ∀ (info : ProjectInfo) (disk : WDisk),
      ∀ a ∈ (generateArtifacts info disk).artifacts,
        ∃ t, a.path = ".claude/" ++ t := by
  intro info disk a ha
  simp only [generateArtifacts] at ha
  rw [List.mem_map] at ha
  obtain ⟨b, hb, rfl⟩ := ha
  show ∃ t, b.path = ".claude/" ++ t
  simp only [List.mem_append] at hb
  rcases hb with ((((hb | hb) | hb) | hb) | hb)
  · simp only [List.mem_cons, List.not_mem_nil, or_false] at hb
    rcases hb with rfl | rfl
    · exact ⟨"CLAUDE.md", rfl⟩
    · exact ⟨"settings.json", rfl⟩
  · simp only [generateSkills, List.mem_append] at hb
    rcases hb with ((((hb | hb) | hb) | hb) | hb)
    · simp only [List.mem_cons, List.not_mem_nil, or_false] at hb
      rcases hb with rfl | rfl | rfl
      · exact ⟨"skills/pattern-discovery.md", rfl⟩
      · exact ⟨"skills/systematic-debugging.md", rfl⟩
      · exact ⟨"skills/testing-methodology.md", rfl⟩
    · obtain rfl := eq_of_mem_ite_singleton hb
      exact ⟨"skills/nextjs-patterns.md", rfl⟩
    · obtain rfl := eq_of_mem_ite_singleton hb
      exact ⟨"skills/react-components.md", rfl⟩
    · obtain rfl := eq_of_mem_ite_singleton hb
      exact ⟨"skills/fastapi-patterns.md", rfl⟩
    · obtain rfl := eq_of_mem_ite_singleton hb
      exact ⟨"skills/nestjs-patterns.md", rfl⟩
  · simp only [generateAgents, List.mem_cons, List.not_mem_nil, or_false] at hb
    rcases hb with rfl | rfl
    · exact ⟨"agents/code-reviewer.md", rfl⟩
    · exact ⟨"agents/test-writer.md", rfl⟩
  · simp only [generateRules, List.mem_append] at hb
    rcases hb with (hb | hb) | hb
    · obtain rfl := eq_of_mem_ite_singleton hb
      exact ⟨"rules/typescript.md", rfl⟩
    · obtain rfl := eq_of_mem_ite_singleton hb
      exact ⟨"rules/python.md", rfl⟩
    · simp only [List.mem_cons, List.not_mem_nil, or_false] at hb
      obtain rfl := hb
      exact ⟨"rules/code-style.md", rfl⟩
  · simp only [generateCommands, List.mem_cons, List.not_mem_nil, or_false] at hb
    rcases hb with rfl | rfl | rfl | rfl
    · exact ⟨"commands/task.md", rfl⟩
    · exact ⟨"commands/status.md", rfl⟩
    · exact ⟨"commands/done.md", rfl⟩
    · exact ⟨"commands/analyze.md", rfl⟩

/-- C7: every synthesized artifact path begins with the reserved `.claude/`
subtree prefix, and consequently a write run over generated artifacts changes
the disk only at paths under `<projectRoot>/.claude/`. -/
theorem generated_paths_in_claude_subtree :
    (∀ (info : ProjectInfo) (disk : WDisk),
      ∀ a ∈ (generateArtifacts info disk).artifacts,
        ∃ t, a.path = ".claude/" ++ t) ∧
    (∀ (info : ProjectInfo) (disk : WDisk) (root : String) (force : Bool)
       (d : WDisk) (p : String),
      (writeArtifacts (generateArtifacts info disk).artifacts root force d).disk p
        ≠ d p →
      ∃ t, p = (root ++ "/.claude/") ++ t) := by
  refine ⟨generateArtifacts_paths, ?_⟩
  intro info disk root force d p hp
  have hmem : p ∈ (generateArtifacts info disk).artifacts.map
      (fun a => joinPath root a.path) := by
    by_contra hnm
    exact hp (writeArtifacts_frame root force _ d p hnm)
  rw [List.mem_map] at hmem
  obtain ⟨a, hamem, rfl⟩ := hmem
  obtain ⟨t, ht⟩ := generateArtifacts_paths info disk a hamem
  refine ⟨t, ?_⟩
  show root ++ "/" ++ a.path = (root ++ "/.claude/") ++ t
  rw [ht, ← String.append_assoc]
  rw [show (root ++ "/" ++ ".claude/") = root ++ "/.claude/" from by
    rw [String.append_assoc]
    exact congrArg (fun s => root ++ s)
      (show ("/" ++ ".claude/" : String) = "/.claude/" from rfl)]

/-- Witness: a write run over the artifacts for an empty project touches
`root/.claude/CLAUDE.md`, a path under the reserved subtree. -/
theorem generated_paths_witness :
    ∃ t, "root/.claude/CLAUDE.md" = ("root" ++ "/.claude/") ++ t :=
  generated_paths_in_claude_subtree.2 emptyInfo emptyWDisk "root" false
    emptyWDisk "root/.claude/CLAUDE.md" (by decide)

mutual

theorem entryFilesE_ok : ∀ (e : EntryR) (pre : String), entryReadsOk e = true →
    entryFilesE e pre = .ok (entryFiles (entryOfR e) pre)
  | .file _, _, _ => rfl
  | .dirOk n es, pre, h => entriesFilesE_ok es (joinPath pre n) h
  | .dirErr _, _, h => absurd h (by simp [entryReadsOk])

theorem entriesFilesE_ok : ∀ (es : List EntryR) (pre : String),
    entriesReadsOk es = true →
    entriesFilesE es pre = .ok (entriesFiles (entriesOfR es) pre)
  | [], _, _ => rfl
  | e :: es, pre, h => by
    have h' : entryReadsOk e = true ∧ entriesReadsOk es = true := by
      rw [← Bool.and_eq_true]
      exact h
    show entriesFilesE (e :: es) pre = _
    simp only [entriesFilesE]
    rw [entryFilesE_ok e pre h'.1, entriesFilesE_ok es pre h'.2]
    rfl

end

/-- Under successful reads, the effectful `.claude` scan computes exactly the
pure scan of the failure-free view. -/
theorem detectExistingClaudeConfigE_ok (d : RepoDisk)
    (hc : claudeReadsOk d = true) :
    detectExistingClaudeConfigE d.claudeDir d.rootClaudeMd =
      .ok (detectExistingClaudeConfig (claudeDirOf d) d.rootClaudeMd) := by
  unfold claudeReadsOk at hc
  cases hcd : d.claudeDir with
  | none =>
    have hcd' : claudeDirOf d = none := by
      unfold claudeDirOf; rw [hcd]
    rw [hcd']
    rfl
  | some r =>
    rw [hcd] at hc
    cases r with
    | error e => simp at hc
    | ok es =>
      have hc' : entriesReadsOk es = true := hc
      have hcd' : claudeDirOf d = some (entriesOfR es) := by
        unfold claudeDirOf; rw [hcd]
      rw [hcd']
      show (match entriesFilesE es ".claude" with
            | Except.error e => (Except.error e : Except Unit (Bool × List String))
            | Except.ok fs => Except.ok (true, fs)) =
        Except.ok (detectExistingClaudeConfig (some (entriesOfR es)) d.rootClaudeMd)
      rw [entriesFilesE_ok es ".claude" hc']
      rfl

theorem readTextE_ok (o : Option (Except Unit String)) (h : readOk o = true) :
    readTextE o = .ok (textOf o) := by
  cases o with
  | none => rfl
  | some r =>
    cases r with
    | ok s => rfl
    | error e => simp [readOk] at h

/-- C8 (amended): the enumerated signal-read failures degrade locally — a
missing, unreadable or malformed `package.json` yields a `null` manifest and
an unreadable root directory an empty listing — and whenever every existing
fallback declaration file is readable (in particular whenever a manifest
parsed, since the fallback reads then never run) and every directory the
`.claude` scan visits is readable, `detectTechStackE` reaches no error branch
and returns exactly the pure `detectTechStack` value.  The two read
conditions mark exactly the uncaught reads of the pipeline: the fallback
`readFileSync` calls of `detectFrameworks` and the `readdirSync` calls of
`detectExistingClaudeConfig`'s recursive walk. -/
theorem detectTechStack_never_raises :
    (∀ d : RepoDisk, d.pkgJson = none → readPackageJson d = none) ∧
    (∀ (d : RepoDisk) (e : Unit), d.pkgJson = some (.error e) →
      readPackageJson d = none) ∧
    (∀ d : RepoDisk, d.pkgJson = some (.ok .malformed) →
      readPackageJson d = none) ∧
    (∀ (d : RepoDisk) (e : Unit), d.rootEntries = .error e →
      listRootFiles d = []) ∧
    (∀ d : RepoDisk, fallbackReadsOk d = true → claudeReadsOk d = true →
      detectTechStackE d = .ok (detectTechStack d)) := by
  refine ⟨?_, ?_, ?_, ?_, ?_⟩
  · intro d h; unfold readPackageJson; rw [h]
  · intro d e h; unfold readPackageJson; rw [h]
  · intro d h; unfold readPackageJson; rw [h]
  · intro d e h; unfold listRootFiles; rw [h]
  · intro d hok hcl
    have hkey : detectFrameworksE (readPackageJson d) (listRootFiles d) d =
        .ok (detectFrameworks (readPackageJson d) (listRootFiles d)
          (fallbackTextsOf d)) := by
      cases readPackageJson d with
      | some m => rfl
      | none =>
        have ht : fallbackTextsE d = .ok (fallbackTextsOf d) := by
          unfold fallbackReadsOk at hok
          rw [Bool.and_eq_true, Bool.and_eq_true, Bool.and_eq_true,
            Bool.and_eq_true] at hok
          obtain ⟨⟨⟨⟨h1, h2⟩, h3⟩, h4⟩, h5⟩ := hok
          unfold fallbackTextsE fallbackTextsOf
          rw [readTextE_ok _ h1, readTextE_ok _ h2, readTextE_ok _ h3,
            readTextE_ok _ h4, readTextE_ok _ h5]
          rfl
        simp [detectFrameworksE, ht, detectFrameworks]
    simp only [detectTechStackE, detectTechStack]
    rw [hkey, detectExistingClaudeConfigE_ok d hcl]
    rfl

/-- Witness: on the empty project disk every fallback read and every
`.claude` walk read is fine and the effectful classification returns the
pure value. -/
theorem detectTechStack_never_raises_witness :
    detectTechStackE emptyDisk = .ok (detectTechStack emptyDisk) :=
  detectTechStack_never_raises.2.2.2.2 emptyDisk (by decide) (by decide)

/-- C8 counterexample: with no manifest and a `requirements.txt` that exists
but whose read throws, the classification pipeline propagates the error
instead of degrading — the fallback reads of `detectFrameworks` are not
wrapped in try/catch. -/
theorem detectTechStackE_raises_cex :
    detectTechStackE unreadableReqDisk = .error () := rfl

/-- C9 (amended): an empty directory classifies to no languages, no
frameworks and no package manager; the task document created in that run (a
new-project run, `isExisting = false`) opens with status `In Progress` and
does not record "no active task" (that wording belongs to the
existing-project branch); and the synthesized instructions document still
contains the `## Tech Stack` heading, only with no stack bullet entries under
it. -/
theorem emptyProject_scenario :
    (detectTechStack emptyDisk).languages = [] ∧
    (detectTechStack emptyDisk).frameworks = [] ∧
    (detectTechStack emptyDisk).packageManager = none ∧
    emptyInfo.isExisting = false ∧
    "## Status: In Progress" ∈ createTaskFileLines emptyInfo none ∧
    recordsNoActiveTask (createTaskFileLines emptyInfo none) = false ∧
    "## Tech Stack" ∈ claudeMdSections emptyInfo ∧
    (claudeMdSections emptyInfo).all
      (fun s => !(strStartsWith s "- **")) = true := by
  decide

/-- C9 counterexample: the run on an empty directory does not create a
document recording "no active task", and the instructions document does not
omit the stack section heading. -/
theorem emptyProject_cex :
    recordsNoActiveTask (createTaskFileLines emptyInfo none) = false ∧
    "## Tech Stack" ∈ claudeMdSections emptyInfo := by
  decide

end Starter
